import Mathlib

set_option linter.unusedVariables false

/-!
Verification of the iPixel-CLI command encoder (`commands.py`).

Python strings are modelled as lists of characters (`PyStr`), byte strings as
`List Nat` with every element below 256, and exceptions as `Except PyStr`.
External collaborators (the glyph rasterizer `char_to_hex` and the bit-level
primitives of `bit_tools`: `switch_endian`, `invert_frames`,
`logic_reverse_bits_order`, `CRC32_checksum`, `binascii.crc32`) are passed in
as explicit function parameters, since they are out of scope per the spec.
-/

deriving instance DecidableEq for Except

/-- Python strings, modelled as lists of characters. -/
abbrev PyStr := List Char

/-- Coerce a Lean string literal into the `PyStr` model. -/
def pstr (s : String) : PyStr := s.toList

/-- Numeric value of a hexadecimal digit character (`0-9`, `a-f`). -/
def dVal (c : Char) : Nat := if 97 ≤ c.toNat then c.toNat - 87 else c.toNat - 48

/-- Digits of `n` in base `b`, most significant first, via explicit fuel
(the fuel makes the definition structurally recursive and kernel-reducible). -/
def bAux (b : Nat) : Nat → Nat → List Char
  | 0, _ => []
  | f + 1, n => if n < b then [Nat.digitChar n] else bAux b f (n / b) ++ [Nat.digitChar (n % b)]

/-- Python rendering of the non-negative integer `n` in base `b`
(`str(n)` for base 10, `hex(n)[2:]` and the `x` format spec for base 16). -/
def pyRepr (b n : Nat) : PyStr := bAux b (n + 1) n

/-- Python `str.zfill` / a `0`-padded minimum-width format spec. -/
def zfill (k : Nat) (s : PyStr) : PyStr := List.replicate (k - s.length) '0' ++ s

/-- `int_to_hex` from `commands.py`: a 2-character lowercase hex rendering. -/
def int_to_hex (n : Nat) : PyStr := zfill 2 (pyRepr 16 n)

/-- Numeric value of a digit string in base `b` (inverse of `pyRepr`). -/
def valB (b : Nat) (l : List Char) : Nat := l.foldl (fun a c => b * a + dVal c) 0

/-- Little-endian byte rendering of `n` on exactly `k` bytes. -/
def leBytes : Nat → Nat → List Nat
  | 0, _ => []
  | k + 1, n => n % 256 :: leBytes k (n / 256)

/-- Python `int.to_bytes(k, byteorder='little')`, which raises `OverflowError`
when the integer does not fit. -/
def to_bytes_le (k n : Nat) : Except PyStr (List Nat) :=
  if n < 2 ^ (8 * k) then Except.ok (leBytes k n)
  else Except.error (pstr "OverflowError: int too big to convert")

/-- Decode a little-endian byte list back into a number. -/
def readLE : List Nat → Nat
  | [] => 0
  | x :: xs => x + 256 * readLE xs

/-- Python `bytearray(xs)`, which raises `ValueError` on an entry above 255. -/
def byteList (xs : List Nat) : Except PyStr (List Nat) :=
  if xs.all (fun x => x < 256) then Except.ok xs
  else Except.error (pstr "ValueError: bytes must be in range(0, 256)")

/-- Value of one hex digit character, accepting both cases. -/
def hexDigit (c : Char) : Option Nat :=
  if '0' ≤ c ∧ c ≤ '9' then some (c.toNat - 48)
  else if 'a' ≤ c ∧ c ≤ 'f' then some (c.toNat - 87)
  else if 'A' ≤ c ∧ c ≤ 'F' then some (c.toNat - 55)
  else none

/-- Pairwise hex decoding; `none` on a non-hex character or odd length. -/
def bytesFromHexGo : List Char → Option (List Nat)
  | [] => some []
  | [_] => none
  | c1 :: c2 :: rest =>
    match hexDigit c1, hexDigit c2, bytesFromHexGo rest with
    | some h, some l, some r => some ((16 * h + l) :: r)
    | _, _, _ => none

/-- Python `bytes.fromhex` (spaces between byte pairs are skipped). -/
def bytesFromHex (s : PyStr) : Except PyStr (List Nat) :=
  match bytesFromHexGo (s.filter (fun c => c ≠ ' ')) with
  | some bs => Except.ok bs
  | none => Except.error (pstr "ValueError: non-hexadecimal number found in fromhex arg")

/-- Python `str.lower` (per character, ASCII). -/
def pyLower (s : PyStr) : PyStr := s.map Char.toLower

/-- Association-list lookup, modelling Python dict indexing. -/
def assocFind {κ α : Type} [DecidableEq κ] (k : κ) : List (κ × α) → Option α
  | [] => none
  | (k', v) :: t => if k = k' then some v else assocFind k t

/-- The error message raised by `validate_range` in `commands.py`. -/
def validate_range_msg (lo hi : Nat) (name : PyStr) : PyStr :=
  name ++ pstr " must be between " ++ pyRepr 10 lo ++ pstr " and " ++ pyRepr 10 hi

/-- `validate_range` from `commands.py`. -/
def validate_range (v lo hi : Nat) (name : PyStr) : Except PyStr Unit :=
  if lo ≤ v ∧ v ≤ hi then Except.ok ()
  else Except.error (validate_range_msg lo hi name)

/-- The error message raised by `validate_list` in `commands.py`; the caller
passes `valid` already sorted, matching the `sorted(valid_list)` in the source. -/
def validate_list_msg {α : Type} (render : α → PyStr) (v : α) (valid : List α) (name : PyStr) : PyStr :=
  name ++ pstr " must be one of " ++ List.intercalate [','] (valid.map render)
    ++ pstr " not " ++ render v

/-- `validate_list` from `commands.py`. -/
def validate_list {α : Type} [DecidableEq α] (render : α → PyStr) (v : α) (valid : List α)
    (name : PyStr) : Except PyStr Unit :=
  if v ∈ valid then Except.ok ()
  else Except.error (validate_list_msg render v valid name)

/-- Parse a run of decimal digits, as Python `int(s)` does on plain digit strings. -/
def parse_int (s : PyStr) : Except PyStr Nat :=
  if s ≠ [] ∧ s.all (fun c => '0' ≤ c ∧ c ≤ '9') then Except.ok (valB 10 s)
  else Except.error (pstr "ValueError: invalid literal for int")

/-! ### Facts about the digit machinery -/

theorem dVal_digitChar : ∀ d, d < 16 → dVal (Nat.digitChar d) = d := by decide

theorem digitChar_ne_x : ∀ d, d < 16 → Nat.digitChar d ≠ 'x' := by decide


theorem bAux_succ (b f n : Nat) : bAux b (f + 1) n =
    if n < b then [Nat.digitChar n] else bAux b f (n / b) ++ [Nat.digitChar (n % b)] := rfl

theorem bAux_fuel (b : Nat) (hb : 2 ≤ b) :
    ∀ n f, n ≤ f → bAux b (f + 1) n = bAux b (n + 1) n := by
  intro n
  induction n using Nat.strong_induction_on with
  | _ n ih =>
    intro f hf
    by_cases h : n < b
    · rw [bAux_succ, bAux_succ, if_pos h, if_pos h]
    · have hdiv : n / b < n := Nat.div_lt_self (by omega) hb
      have hn2 : 2 ≤ n := by omega
      obtain ⟨f1, rfl⟩ : ∃ f1, f = f1 + 1 := ⟨f - 1, by omega⟩
      obtain ⟨n1, hn1⟩ : ∃ n1, n = n1 + 1 := ⟨n - 1, by omega⟩
      subst hn1
      rw [bAux_succ b (f1 + 1) (n1 + 1), bAux_succ b (n1 + 1) (n1 + 1), if_neg h, if_neg h,
          ih ((n1 + 1) / b) hdiv f1 (by omega), ih ((n1 + 1) / b) hdiv n1 (by omega)]

theorem pyRepr_def (b : Nat) (hb : 2 ≤ b) (n : Nat) :
    pyRepr b n = if n < b then [Nat.digitChar n]
      else pyRepr b (n / b) ++ [Nat.digitChar (n % b)] := by
  by_cases h : n < b
  · rw [pyRepr, bAux_succ, if_pos h, if_pos h]
  · have hdiv : n / b < n := Nat.div_lt_self (by omega) hb
    obtain ⟨n1, hn1⟩ : ∃ n1, n = n1 + 1 := ⟨n - 1, by omega⟩
    subst hn1
    rw [if_neg h, pyRepr, pyRepr, bAux_succ b (n1 + 1) (n1 + 1), if_neg h,
        bAux_fuel b hb ((n1 + 1) / b) n1 (by omega)]

theorem valB_append_last (b : Nat) (l : List Char) (c : Char) :
    valB b (l ++ [c]) = b * valB b l + dVal c := by
  simp [valB, List.foldl_append]

theorem valB_pyRepr (b : Nat) (hb : 2 ≤ b) (hb16 : b ≤ 16) :
    ∀ n, valB b (pyRepr b n) = n := by
  intro n
  induction n using Nat.strong_induction_on with
  | _ n ih =>
    rw [pyRepr_def b hb]
    by_cases h : n < b
    · simp [h, valB, dVal_digitChar n (by omega)]
    · have hdiv : n / b < n := Nat.div_lt_self (by omega) hb
      rw [if_neg h, valB_append_last, ih (n / b) hdiv,
          dVal_digitChar (n % b) (by have := Nat.mod_lt n (show 0 < b by omega); omega)]
      exact Nat.div_add_mod n b

theorem pyRepr_mem (b : Nat) (hb : 2 ≤ b) :
    ∀ n c, c ∈ pyRepr b n → ∃ d, d < b ∧ c = Nat.digitChar d := by
  intro n
  induction n using Nat.strong_induction_on with
  | _ n ih =>
    intro c hc
    rw [pyRepr_def b hb] at hc
    by_cases h : n < b
    · rw [if_pos h] at hc
      exact ⟨n, h, by simpa using hc⟩
    · rw [if_neg h] at hc
      rcases List.mem_append.mp hc with h1 | h2
      · exact ih (n / b) (Nat.div_lt_self (by omega) hb) c h1
      · exact ⟨n % b, Nat.mod_lt n (by omega), by simpa using h2⟩

theorem pyRepr_ne_nil (b : Nat) (hb : 2 ≤ b) (n : Nat) : pyRepr b n ≠ [] := by
  rw [pyRepr_def b hb]
  by_cases h : n < b <;> simp [h]

theorem pyRepr_no_x (b : Nat) (hb : 2 ≤ b) (hb16 : b ≤ 16) (n : Nat) :
    'x' ∉ pyRepr b n := by
  intro hx
  obtain ⟨d, hd, hdx⟩ := pyRepr_mem b hb n 'x' hx
  exact digitChar_ne_x d (by omega) hdx.symm

theorem valB_lt (b : Nat) (hb : 2 ≤ b) :
    ∀ l : List Char, (∀ c ∈ l, dVal c < b) → valB b l < b ^ l.length := by
  intro l
  induction l using List.reverseRecOn with
  | nil => intro _; simp [valB]
  | append_singleton l c ih =>
    intro hd
    rw [valB_append_last]
    have h1 : valB b l < b ^ l.length := ih (fun c hc => hd c (List.mem_append_left _ hc))
    have h2 : dVal c < b := hd c (List.mem_append_right _ (List.mem_singleton_self c))
    have h3 : b * valB b l ≤ b * (b ^ l.length - 1) := Nat.mul_le_mul_left b (by omega)
    have h5 : 1 ≤ b ^ l.length := Nat.one_le_pow _ _ (by omega)
    have h6 : b * (b ^ l.length - 1) + b = b * b ^ l.length := by
      have e : b ^ l.length - 1 + 1 = b ^ l.length := by omega
      calc b * (b ^ l.length - 1) + b = b * (b ^ l.length - 1 + 1) := by ring
        _ = b * b ^ l.length := by rw [e]
    have h4 : b ^ (l ++ [c]).length = b * b ^ l.length := by
      simp [List.length_append, pow_succ]
      ring
    rw [h4]
    omega

theorem pyRepr_dVal_lt (b : Nat) (hb : 2 ≤ b) (hb16 : b ≤ 16) (n : Nat) :
    ∀ c ∈ pyRepr b n, dVal c < b := by
  intro c hc
  obtain ⟨d, hd, rfl⟩ := pyRepr_mem b hb n c hc
  rw [dVal_digitChar d (by omega)]
  exact hd

theorem pyRepr_len_le (b : Nat) (hb : 2 ≤ b) :
    ∀ n k, 1 ≤ k → n < b ^ k → (pyRepr b n).length ≤ k := by
  intro n
  induction n using Nat.strong_induction_on with
  | _ n ih =>
    intro k hk hn
    rw [pyRepr_def b hb]
    by_cases h : n < b
    · rw [if_pos h]
      simpa using hk
    · rw [if_neg h]
      obtain ⟨k1, rfl⟩ : ∃ k1, k = k1 + 1 := ⟨k - 1, by omega⟩
      have hk1 : 1 ≤ k1 := by
        by_contra hc
        have : k1 = 0 := by omega
        subst this
        simp at hn
        omega
      have hdiv : n / b < b ^ k1 := by
        rw [Nat.div_lt_iff_lt_mul (by omega)]
        calc n < b ^ (k1 + 1) := hn
          _ = b ^ k1 * b := by rw [pow_succ]
      have := ih (n / b) (Nat.div_lt_self (by omega) hb) k1 hk1 hdiv
      rw [List.length_append, List.length_singleton]
      omega

theorem pyRepr_len_lower (b : Nat) (hb : 2 ≤ b) (hb16 : b ≤ 16) (n : Nat) :
    n < b ^ (pyRepr b n).length := by
  conv_lhs => rw [← valB_pyRepr b hb hb16 n]
  exact valB_lt b hb _ (pyRepr_dVal_lt b hb hb16 n)

theorem zfill_length (k : Nat) (s : PyStr) : (zfill k s).length = max k s.length := by
  simp [zfill]
  omega

theorem valB_zfill (b k : Nat) (s : PyStr) : valB b (zfill k s) = valB b s := by
  rw [zfill, valB, valB, List.foldl_append]
  congr 1
  induction k - s.length with
  | zero => rfl
  | succ m ihm =>
    rw [List.replicate_succ, List.foldl_cons]
    simpa [dVal] using ihm

theorem zfill_mem (k : Nat) (s : PyStr) (c : Char) (h : c ∈ zfill k s) : c = '0' ∨ c ∈ s := by
  rw [zfill] at h
  rcases List.mem_append.mp h with h1 | h2
  · exact Or.inl (List.eq_of_mem_replicate h1)
  · exact Or.inr h2

/-! ### The Python `f-string` rendering `f"{height:02}x{width:02}"` of a
resolution, and its injectivity on the table keys. -/

/-- Python `f"{n:02}"`: decimal, zero-padded to at least two characters. -/
def pad2 (n : Nat) : PyStr := zfill 2 (pyRepr 10 n)

/-- Python `f"{height:02}x{width:02}"`, the key of the fixed-resolution table. -/
def formatRes (height width : Nat) : PyStr := pad2 height ++ ['x'] ++ pad2 width

theorem pad2_no_x (n : Nat) : 'x' ∉ pad2 n := by
  intro hx
  rcases zfill_mem 2 (pyRepr 10 n) 'x' hx with h | h
  · simp at h
  · exact pyRepr_no_x 10 (by omega) (by omega) n h

theorem valB_pad2 (n : Nat) : valB 10 (pad2 n) = n := by
  rw [pad2, valB_zfill, valB_pyRepr 10 (by omega) (by omega)]

theorem split_first_x (l1 l2 : List Char) (c1 c2 c3 c4 : Char)
    (hl1 : 'x' ∉ l1) (hc1 : c1 ≠ 'x') (hc2 : c2 ≠ 'x')
    (heq : l1 ++ 'x' :: l2 = [c1, c2, 'x', c3, c4]) : l1 = [c1, c2] ∧ l2 = [c3, c4] := by
  match l1 with
  | [] =>
    rw [List.nil_append] at heq
    injection heq with e1 _
    exact absurd e1.symm hc1
  | [a] =>
    simp only [List.cons_append, List.nil_append] at heq
    injection heq with e1 r
    injection r with e2 _
    exact absurd e2.symm hc2
  | [a, a'] =>
    simp only [List.cons_append, List.nil_append] at heq
    injection heq with e1 r
    injection r with e2 r
    injection r with e3 r
    exact ⟨by rw [e1, e2], r⟩
  | a :: a' :: a'' :: t =>
    simp only [List.cons_append] at heq
    injection heq with e1 r
    injection r with e2 r
    injection r with e3 _
    exact absurd (e3 ▸ List.mem_cons_of_mem a (List.mem_cons_of_mem a'
      (List.mem_cons_self a'' t))) hl1

theorem formatRes_inj (h w : Nat) (c1 c2 c3 c4 : Char) (hc1 : c1 ≠ 'x') (hc2 : c2 ≠ 'x')
    (heq : formatRes h w = [c1, c2, 'x', c3, c4]) :
    h = valB 10 [c1, c2] ∧ w = valB 10 [c3, c4] := by
  rw [formatRes, List.append_assoc] at heq
  obtain ⟨e1, e2⟩ := split_first_x (pad2 h) (pad2 w) c1 c2 c3 c4 (pad2_no_x h) hc1 hc2
    (by simpa using heq)
  constructor
  · rw [← valB_pad2 h, e1]
  · rw [← valB_pad2 w, e2]

/-! ### Clock mode (`set_clock_mode`), with the proleptic-Gregorian weekday
computation of Python `datetime` modelled explicitly. -/

/-- Gregorian leap-year test, as in Python `datetime`. -/
def is_leap (y : Nat) : Bool := y % 4 == 0 && (y % 100 != 0 || y % 400 == 0)

/-- Length of month `m` (1-based) of year `y`. -/
def days_in_month (y m : Nat) : Nat :=
  if m = 2 then (if is_leap y then 29 else 28)
  else if m = 4 ∨ m = 6 ∨ m = 9 ∨ m = 11 then 30
  else 31

/-- Days in year `y` strictly before month `m`. -/
def days_before_month (y m : Nat) : Nat :=
  (List.range (m - 1)).foldl (fun a i => a + days_in_month y (i + 1)) 0

/-- Python `datetime.date(y, m, d).toordinal()` (day 1 = 0001-01-01). -/
def toordinal (y m d : Nat) : Nat :=
  365 * (y - 1) + (y - 1) / 4 - (y - 1) / 100 + (y - 1) / 400 + days_before_month y m + d

/-- Python `datetime.date(y, m, d).weekday()`: Monday = 0 … Sunday = 6. -/
def date_weekday (y m d : Nat) : Nat := (toordinal y m d - 1) % 7

/-- Split a character list at every separator, like Python `str.split(sep)`. -/
def splitOnChar (sep : Char) : PyStr → List PyStr
  | [] => [[]]
  | c :: rest =>
    let r := splitOnChar sep rest
    if c = sep then [] :: r
    else match r with
      | [] => [[c]]
      | h :: t => (c :: h) :: t

/-- The explicit-date branch of `set_clock_mode`: split on `/`, parse the three
integers, and let `datetime.datetime(year, month, day)` validate the date and
give the weekday; any failure is caught and re-raised as `Invalid date format`. -/
def parse_date (date : PyStr) : Except PyStr (Nat × Nat × Nat × Nat) :=
  match splitOnChar '/' date with
  | [ds, ms, ys] =>
    match parse_int ds, parse_int ms, parse_int ys with
    | Except.ok d, Except.ok m, Except.ok y =>
      if 1 ≤ y ∧ y ≤ 9999 ∧ 1 ≤ m ∧ m ≤ 12 ∧ 1 ≤ d ∧ d ≤ days_in_month y m
      then Except.ok (d, m, y, date_weekday y m d + 1)
      else Except.error (pstr "Invalid date format: date out of range")
    | _, _, _ => Except.error (pstr "Invalid date format: invalid int literal")
  | _ => Except.error (pstr "Invalid date format: wrong number of fields")

/-- `set_clock_mode` from `commands.py`.  The current system date (used only
when `date` is empty) is passed explicitly as `now_day`/`now_month`/`now_year`
(full year) and `now_weekday0` (Python `weekday()`, Monday = 0). -/
def set_clock_mode (now_day now_month now_year now_weekday0 : Nat)
    (style : Nat) (date : PyStr) (show_date format_24 : Bool) : Except PyStr (List Nat) := do
  let (day, month, year, day_of_week) ←
    if date = [] then pure (now_day, now_month, now_year % 100, now_weekday0 + 1)
    else parse_date date
  validate_range style 0 8 (pstr "Clock mode")
  validate_range day_of_week 1 7 (pstr "Day of week")
  validate_range month 1 12 (pstr "Month")
  validate_range day 1 31 (pstr "Day")
  validate_range year 0 99 (pstr "Year")
  let header ← bytesFromHex (pstr "0b000601")
  let params ← bytesFromHex (int_to_hex style
    ++ (if format_24 then pstr "01" else pstr "00")
    ++ (if show_date then pstr "01" else pstr "00"))
  let date_bytes ← bytesFromHex (int_to_hex year ++ int_to_hex month
    ++ int_to_hex day ++ int_to_hex day_of_week)
  pure (header ++ params ++ date_bytes)

/-- C7: `set_clock_mode` with style 0, explicit date `15/6/24` and the default
`show_date`/`format_24` parses day 15, month 6, year 24, computes weekday
byte 6 (Saturday), and returns exactly `0b 00 06 01 00 01 01 18 06 0f 06`. -/
theorem set_clock_mode_15_6_24 :
    parse_date (pstr "15/6/24") = Except.ok (15, 6, 24, 6) ∧
    set_clock_mode 1 1 2024 0 0 (pstr "15/6/24") true true =
      Except.ok [0x0b, 0x00, 0x06, 0x01, 0x00, 0x01, 0x01, 0x18, 0x06, 0x0f, 0x06] := by
  constructor
  · decide
  · decide

/-! ### The new "text packet" family: frame constructors and the
`text_packet` builder. -/

/-- External collaborators used by the new command family: the rasterizer
`char_to_hex` (here with the extra `minmax_width` keyword), the three bit-level
string transforms from `bit_tools`, and `binascii.crc32`. -/
structure PacketExt where
  char_to_hex : Char → Nat → PyStr → Int × Int → Nat → Nat × Nat × Nat → PyStr × Nat
  switch_endian : PyStr → PyStr
  invert_frames : PyStr → PyStr
  logic_reverse_bits_order : PyStr → PyStr
  crc32 : List Nat → Nat

/-- `binCRC32_checksum` from `commands.py`: `binascii.crc32(data) & 0xFFFFFFFF`. -/
def binCRC32_checksum (E : PacketExt) (data : List Nat) : Nat := E.crc32 data % 4294967296

/-- `add_packet_size` from `commands.py`. -/
def add_packet_size (b : List Nat) : Except PyStr (List Nat) :=
  match to_bytes_le 2 (b.length + 2) with
  | Except.error e => Except.error e
  | Except.ok sz => Except.ok (sz ++ b)

/-- `update_packet_size` from `commands.py`: overwrite the leading two bytes
with `len(b)`, little-endian. -/
def update_packet_size (b : List Nat) : Except PyStr (List Nat) :=
  match to_bytes_le 2 b.length with
  | Except.error e => Except.error e
  | Except.ok sz => Except.ok (sz ++ b.drop 2)

/-- `char2bytes` from `commands.py`, parametrized by the external rasterizer
and bit transforms. -/
def char2bytes (E : PacketExt) (char : Char) (matrix_height : Nat) (font : PyStr)
    (font_offset : Int × Int) (font_size : Nat) (minmax_width : Nat × Nat × Nat) :
    Except PyStr (List Nat × Nat) :=
  let fs := if font_size = 0 then matrix_height else font_size
  let r := E.char_to_hex char matrix_height font font_offset fs minmax_width
  match bytesFromHex (E.logic_reverse_bits_order (E.switch_endian (E.invert_frames r.1))) with
  | Except.error e => Except.error e
  | Except.ok bs => Except.ok (bs, r.2)

/-- `text_img_frame` from `commands.py` (jpg-only image frame). -/
def text_img_frame (res : Nat) (jpg_data : List Nat) : Except PyStr (List Nat) :=
  match validate_list (pyRepr 10) res [16, 20, 24, 32, 64] (pstr "width") with
  | Except.error e => Except.error e
  | Except.ok _ =>
    let code := if res = 16 then 0x08 else if res = 32 then 0x09
      else if res = 20 then 0x0C else if res = 24 then 0x0B else 0x0A
    match to_bytes_le 3 jpg_data.length with
    | Except.error e => Except.error e
    | Except.ok sz => Except.ok (code :: sz ++ jpg_data)

/-- The fixed-resolution table of `text_bmp_frame`, keyed (as in the source) on
the string `f"{height:02}x{width:02}"`: discriminant byte and exact bitmap size. -/
def res2val_size : List (PyStr × (Nat × Nat)) :=
  [(pstr "16x08", (0x00, 16 * 8 / 8)),
   (pstr "16x16", (0x01, 16 * 16 / 8)),
   (pstr "32x16", (0x02, 32 * 16 / 8)),
   (pstr "32x32", (0x03, 32 * 32 / 8)),
   (pstr "48x24", (0x04, 48 * 24 / 8)),
   (pstr "48x48", (0x05, 48 * 48 / 8)),
   (pstr "64x32", (0x06, 64 * 32 / 8)),
   (pstr "64x64", (0x07, 64 * 64 / 8))]

/-- `text_bmp_frame` from `commands.py` (fixed-resolution bitmap frame). -/
def text_bmp_frame (height width : Nat) (color_rgb : PyStr) (bmp_data : List Nat) :
    Except PyStr (List Nat) :=
  let res := formatRes height width
  match validate_list (fun s => s) res (res2val_size.map (fun e => e.1)) (pstr "width") with
  | Except.error e => Except.error e
  | Except.ok _ =>
    match assocFind res res2val_size with
    | none => Except.error (pstr "KeyError")
    | some ds =>
      match validate_list (pyRepr 10) bmp_data.length [ds.2] (pstr "bmp size") with
      | Except.error e => Except.error e
      | Except.ok _ =>
        match bytesFromHex color_rgb with
        | Except.error e => Except.error e
        | Except.ok cb => Except.ok (ds.1 :: (cb ++ bmp_data))

/-- `text_bmp_var_width_frame` from `commands.py` (variable-width bitmap frame,
discriminant `0x80`). -/
def text_bmp_var_width_frame (height width : Nat) (color_rgb : PyStr) (bmp_data : List Nat) :
    Except PyStr (List Nat) :=
  match validate_list (pyRepr 10) height [12, 16, 20, 24, 32] (pstr "bmp height") with
  | Except.error e => Except.error e
  | Except.ok _ =>
    match validate_list (pyRepr 10) bmp_data.length [height * ((width + 7) / 8)]
        (pstr "bmp size") with
    | Except.error e => Except.error e
    | Except.ok _ =>
      match bytesFromHex color_rgb with
      | Except.error e => Except.error e
      | Except.ok cb =>
        match byteList [width, height] with
        | Except.error e => Except.error e
        | Except.ok wh => Except.ok (0x80 :: (cb ++ wh ++ bmp_data))

/-- The `text_packet` builder object.  `render_call` holds the renderer
installed by `set_renderer` with its keyword arguments already bound
(`render_call_param`), as a function from character and size to (bitmap bytes,
character width); `none` models the initial `render_call=None`. -/
structure text_packet where
  led_type : Nat
  animation : Nat
  speed : Nat
  halign : Nat
  valign : Nat
  color_mode : Nat
  color : PyStr
  bg_color_mode : Nat
  bg_color : PyStr
  char_frames : List (List Nat)
  render_call : Option (Char → Nat → Except PyStr (List Nat × Nat))

/-- `text_packet.__init__` from `commands.py` (parameters in source order).
Note the source's own assignment `self.bg_color = color`. -/
def text_packet.init (led_type animation speed color_mode : Nat) (color : PyStr)
    (bg_color_mode : Nat) (bg_color : PyStr) (halign valign : Nat) : text_packet :=
  { led_type := led_type, animation := animation, speed := speed,
    halign := halign, valign := valign, color_mode := color_mode, color := color,
    bg_color_mode := bg_color_mode, bg_color := color,
    char_frames := [], render_call := none }

/-- `text_packet.get_packet` from `commands.py`: the serialized properties
header followed by the accumulated frames. -/
def text_packet.get_packet (p : text_packet) : Except PyStr (List Nat) :=
  match to_bytes_le 2 p.char_frames.length with
  | Except.error e => Except.error e
  | Except.ok cnt =>
    match byteList [p.halign, p.valign, p.animation, p.speed, p.color_mode] with
    | Except.error e => Except.error e
    | Except.ok mid =>
      match bytesFromHex p.color with
      | Except.error e => Except.error e
      | Except.ok cb =>
        match byteList [p.bg_color_mode] with
        | Except.error e => Except.error e
        | Except.ok bgm =>
          match bytesFromHex p.bg_color with
          | Except.error e => Except.error e
          | Except.ok bgb =>
            Except.ok (cnt ++ mid ++ cb ++ bgm ++ bgb ++ p.char_frames.flatten)

/-- `text_packet.set_renderer` from `commands.py`. -/
def text_packet.set_renderer (p : text_packet)
    (rc : Option (Char → Nat → Except PyStr (List Nat × Nat))) : text_packet :=
  { p with render_call := rc }

/-- Python color-string normalization shared by `add_text` and `add_bmp`:
default `ffffff`, and doubling of each character when not 6 characters long. -/
def normColor (color : Option PyStr) : PyStr :=
  let c := match color with | none => pstr "ffffff" | some c => c
  if c.length = 6 then c else c.flatMap (fun ch => [ch, ch])

/-- `text_packet.add_bmp` from `commands.py`: panel type 0 rounds the width up
to a multiple of 8 and appends a fixed-resolution frame, type 1 appends a
variable-width frame, and any other `led_type` falls through both branches. -/
def text_packet.add_bmp (p : text_packet) (height width : Nat) (color : Option PyStr)
    (bmp : List Nat) : Except PyStr text_packet :=
  let color := normColor color
  if p.led_type = 0 then
    let width := ((width + 7) / 8) * 8
    match text_bmp_frame height width color bmp with
    | Except.error e => Except.error e
    | Except.ok fr => Except.ok { p with char_frames := p.char_frames ++ [fr] }
  else if p.led_type = 1 then
    match text_bmp_var_width_frame height width color bmp with
    | Except.error e => Except.error e
    | Except.ok fr => Except.ok { p with char_frames := p.char_frames ++ [fr] }
  else Except.ok p

/-- The per-character loop of `text_packet.add_text`. -/
def addTextLoop (f : Char → Nat → Except PyStr (List Nat × Nat)) (size : Nat) (color : PyStr) :
    text_packet → List Char → Except PyStr text_packet
  | p, [] => Except.ok p
  | p, c :: cs =>
    match f c size with
    | Except.error e => Except.error e
    | Except.ok r =>
      match p.add_bmp size r.2 (some color) r.1 with
      | Except.error e => Except.error e
      | Except.ok p' => addTextLoop f size color p' cs

/-- `text_packet.add_text` from `commands.py`: render each character with the
installed renderer and delegate to `add_bmp` (calling a `None` renderer is a
Python `TypeError`). -/
def text_packet.add_text (p : text_packet) (text : PyStr) (size : Nat) (color : Option PyStr) :
    Except PyStr text_packet :=
  let color := normColor color
  match p.render_call with
  | none => Except.error (pstr "TypeError: NoneType object is not callable")
  | some f => addTextLoop f size color p text

/-- `text_packet.add_img` from `commands.py`: `readResult` is the outcome of
`open(filename).read()` (`none` when the open or read raised `OSError`, which
the source catches and ignores). -/
def text_packet.add_img (p : text_packet) (size : Nat) (readResult : Option (List Nat)) :
    Except PyStr text_packet :=
  match readResult with
  | none => Except.ok p
  | some data =>
    match text_img_frame size data with
    | Except.error e => Except.error e
    | Except.ok fr => Except.ok { p with char_frames := p.char_frames ++ [fr] }

theorem validate_list_ok {α : Type} [DecidableEq α] (render : α → PyStr) (v : α)
    (valid : List α) (name : PyStr) (h : v ∈ valid) :
    validate_list render v valid name = Except.ok () := by
  rw [validate_list, if_pos h]

theorem validate_list_err {α : Type} [DecidableEq α] (render : α → PyStr) (v : α)
    (valid : List α) (name : PyStr) (h : v ∉ valid) :
    validate_list render v valid name = Except.error (validate_list_msg render v valid name) := by
  rw [validate_list, if_neg h]

/-- C2 (code bug): the builder constructed with `color="ffffff"` and
`bg_color="000000"` serializes `ff ff ff` — the bytes of the `color` argument —
in the bgColor slot (directly after the bgColorMode byte at index 10), because
`__init__` assigns `self.bg_color = color`; the `bg_color` argument's bytes
`00 00 00` never appear. -/
theorem text_packet_bg_color_from_color_argument :
    (text_packet.init 0 0 80 0 (pstr "ffffff") 0 (pstr "000000") 0 0).get_packet =
      Except.ok [0, 0, 0, 0, 0, 80, 0, 255, 255, 255, 0, 255, 255, 255] ∧
    List.drop 11 [0, 0, 0, 0, 0, 80, 0, 255, 255, 255, 0, 255, 255, 255] = [255, 255, 255] ∧
    bytesFromHex (pstr "ffffff") = Except.ok [255, 255, 255] ∧
    bytesFromHex (pstr "000000") = Except.ok [0, 0, 0] ∧
    [255, 255, 255] ≠ [0, 0, 0] := by
  refine ⟨by decide, by decide, by decide, by decide, by decide⟩

/-- C8: when the file open/read fails (`readResult = none`, the `OSError`
path), `add_img` raises nothing and leaves the builder — in particular its
accumulated frame list — unchanged. -/
theorem add_img_read_failure_skips (p : text_packet) (size : Nat) :
    p.add_img size none = Except.ok p := rfl

/-- C10: on a builder whose `led_type` is neither 0 nor 1, `add_bmp` always
succeeds and returns the builder unchanged, and consequently `add_text` (whose
per-character renderer calls succeed) also returns it unchanged. -/
theorem add_bmp_other_led_type_noop (p : text_packet)
    (h0 : p.led_type ≠ 0) (h1 : p.led_type ≠ 1) :
    (∀ height width color bmp, p.add_bmp height width color bmp = Except.ok p) ∧
    (∀ f, p.render_call = some f → ∀ text size color,
      (∀ c ∈ text, ∃ r, f c size = Except.ok r) →
      p.add_text text size color = Except.ok p) := by
  have hbmp : ∀ height width color bmp, p.add_bmp height width color bmp = Except.ok p := by
    intro height width color bmp
    simp only [text_packet.add_bmp, if_neg h0, if_neg h1]
  refine ⟨hbmp, ?_⟩
  intro f hf text size color hall
  rw [text_packet.add_text, hf]
  induction text with
  | nil => rfl
  | cons c cs ih =>
    obtain ⟨r, hr⟩ := hall c (List.mem_cons_self c cs)
    simp only [addTextLoop, hr, hbmp]
    exact ih (fun c hc => hall c (List.mem_cons_of_mem _ hc))

/-- A concrete builder with `led_type = 2` and an installed trivial renderer. -/
def pktLed2 : text_packet :=
  (text_packet.init 2 0 80 0 (pstr "ffffff") 0 (pstr "000000") 0 0).set_renderer
    (some fun _ _ => Except.ok ([], 0))

theorem add_bmp_other_led_type_noop_witness :
    pktLed2.add_bmp 16 16 none [] = Except.ok pktLed2 ∧
    pktLed2.add_text (pstr "Hi") 16 none = Except.ok pktLed2 := by
  have h := add_bmp_other_led_type_noop pktLed2 (by decide) (by decide)
  exact ⟨h.1 16 16 none [],
    h.2 _ rfl (pstr "Hi") 16 none (fun c _ => ⟨([], 0), rfl⟩)⟩

/-! ### C5: the fixed-resolution bitmap table -/

/-- The resolution table as stated in the spec: (height, width, discriminant,
expected bitmap byte length). -/
def fixedResTable : List (Nat × Nat × Nat × Nat) :=
  [(16, 8, 0x00, 16), (16, 16, 0x01, 32), (32, 16, 0x02, 64), (32, 32, 0x03, 128),
   (48, 24, 0x04, 144), (48, 48, 0x05, 288), (64, 32, 0x06, 256), (64, 64, 0x07, 512)]

theorem text_bmp_frame_eval_ok (height width d s : Nat) (color : PyStr) (cb bmp : List Nat)
    (hmem : formatRes height width ∈ res2val_size.map (fun e => e.1))
    (hfind : assocFind (formatRes height width) res2val_size = some (d, s))
    (hlen : bmp.length = s)
    (hcb : bytesFromHex color = Except.ok cb) :
    text_bmp_frame height width color bmp = Except.ok (d :: (cb ++ bmp)) := by
  simp only [text_bmp_frame,
    validate_list_ok (fun s => s) (formatRes height width) _ (pstr "width") hmem, hfind,
    validate_list_ok (pyRepr 10) bmp.length [s] (pstr "bmp size") (by simp [hlen]), hcb]

theorem text_bmp_frame_eval_size_err (height width d s : Nat) (color : PyStr) (bmp : List Nat)
    (hmem : formatRes height width ∈ res2val_size.map (fun e => e.1))
    (hfind : assocFind (formatRes height width) res2val_size = some (d, s))
    (hlen : bmp.length ≠ s) :
    text_bmp_frame height width color bmp =
      Except.error (validate_list_msg (pyRepr 10) bmp.length [s] (pstr "bmp size")) := by
  simp only [text_bmp_frame,
    validate_list_ok (fun s => s) (formatRes height width) _ (pstr "width") hmem, hfind,
    validate_list_err (pyRepr 10) bmp.length [s] (pstr "bmp size") (by simp [hlen])]

theorem formatRes_key_cases (h w : Nat)
    (hmem : formatRes h w ∈ res2val_size.map (fun e => e.1)) :
    (h, w) ∈ fixedResTable.map (fun e => (e.1, e.2.1)) := by
  have cases8 : formatRes h w = pstr "16x08" ∨ formatRes h w = pstr "16x16" ∨
      formatRes h w = pstr "32x16" ∨ formatRes h w = pstr "32x32" ∨
      formatRes h w = pstr "48x24" ∨ formatRes h w = pstr "48x48" ∨
      formatRes h w = pstr "64x32" ∨ formatRes h w = pstr "64x64" := by
    simpa [res2val_size] using hmem
  rcases cases8 with hc | hc | hc | hc | hc | hc | hc | hc
  · obtain ⟨hh, hw⟩ := formatRes_inj h w '1' '6' '0' '8' (by decide) (by decide)
      (by rw [hc]; rfl)
    rw [show valB 10 ['1', '6'] = 16 from by decide] at hh
    rw [show valB 10 ['0', '8'] = 8 from by decide] at hw
    subst hh; subst hw; decide
  · obtain ⟨hh, hw⟩ := formatRes_inj h w '1' '6' '1' '6' (by decide) (by decide)
      (by rw [hc]; rfl)
    rw [show valB 10 ['1', '6'] = 16 from by decide] at hh
    rw [show valB 10 ['1', '6'] = 16 from by decide] at hw
    subst hh; subst hw; decide
  · obtain ⟨hh, hw⟩ := formatRes_inj h w '3' '2' '1' '6' (by decide) (by decide)
      (by rw [hc]; rfl)
    rw [show valB 10 ['3', '2'] = 32 from by decide] at hh
    rw [show valB 10 ['1', '6'] = 16 from by decide] at hw
    subst hh; subst hw; decide
  · obtain ⟨hh, hw⟩ := formatRes_inj h w '3' '2' '3' '2' (by decide) (by decide)
      (by rw [hc]; rfl)
    rw [show valB 10 ['3', '2'] = 32 from by decide] at hh
    rw [show valB 10 ['3', '2'] = 32 from by decide] at hw
    subst hh; subst hw; decide
  · obtain ⟨hh, hw⟩ := formatRes_inj h w '4' '8' '2' '4' (by decide) (by decide)
      (by rw [hc]; rfl)
    rw [show valB 10 ['4', '8'] = 48 from by decide] at hh
    rw [show valB 10 ['2', '4'] = 24 from by decide] at hw
    subst hh; subst hw; decide
  · obtain ⟨hh, hw⟩ := formatRes_inj h w '4' '8' '4' '8' (by decide) (by decide)
      (by rw [hc]; rfl)
    rw [show valB 10 ['4', '8'] = 48 from by decide] at hh
    rw [show valB 10 ['4', '8'] = 48 from by decide] at hw
    subst hh; subst hw; decide
  · obtain ⟨hh, hw⟩ := formatRes_inj h w '6' '4' '3' '2' (by decide) (by decide)
      (by rw [hc]; rfl)
    rw [show valB 10 ['6', '4'] = 64 from by decide] at hh
    rw [show valB 10 ['3', '2'] = 32 from by decide] at hw
    subst hh; subst hw; decide
  · obtain ⟨hh, hw⟩ := formatRes_inj h w '6' '4' '6' '4' (by decide) (by decide)
      (by rw [hc]; rfl)
    rw [show valB 10 ['6', '4'] = 64 from by decide] at hh
    rw [show valB 10 ['6', '4'] = 64 from by decide] at hw
    subst hh; subst hw; decide

/-- C5: for every (height, width) pair of the fixed-resolution table, a bitmap
of exactly the declared length yields `discriminant :: color-bytes ++ bitmap`,
a bitmap one byte shorter or longer fails with the `bmp size` validation error,
and every pair not in the table fails with the `width` (not-allowed) validation
error. -/
theorem text_bmp_frame_table_spec :
    (∀ h w d s, (h, w, d, s) ∈ fixedResTable →
      (∀ color cb bmp, bytesFromHex color = Except.ok cb → bmp.length = s →
        text_bmp_frame h w color bmp = Except.ok (d :: (cb ++ bmp))) ∧
      (∀ color bmp, bmp.length = s - 1 ∨ bmp.length = s + 1 →
        text_bmp_frame h w color bmp =
          Except.error (validate_list_msg (pyRepr 10) bmp.length [s] (pstr "bmp size")))) ∧
    (∀ h w, (h, w) ∉ fixedResTable.map (fun e => (e.1, e.2.1)) →
      ∀ color bmp, text_bmp_frame h w color bmp =
        Except.error (validate_list_msg (fun s => s) (formatRes h w)
          (res2val_size.map (fun e => e.1)) (pstr "width"))) := by
  constructor
  · intro h w d s hmem
    simp only [fixedResTable, List.mem_cons, List.not_mem_nil, or_false, Prod.mk.injEq] at hmem
    rcases hmem with ⟨rfl, rfl, rfl, rfl⟩ | ⟨rfl, rfl, rfl, rfl⟩ | ⟨rfl, rfl, rfl, rfl⟩ |
      ⟨rfl, rfl, rfl, rfl⟩ | ⟨rfl, rfl, rfl, rfl⟩ | ⟨rfl, rfl, rfl, rfl⟩ |
      ⟨rfl, rfl, rfl, rfl⟩ | ⟨rfl, rfl, rfl, rfl⟩
    · exact ⟨fun color cb bmp hcb hlen =>
          text_bmp_frame_eval_ok 16 8 0 16 color cb bmp (by decide) (by decide) hlen hcb,
        fun color bmp hlen =>
          text_bmp_frame_eval_size_err 16 8 0 16 color bmp (by decide) (by decide) (by omega)⟩
    · exact ⟨fun color cb bmp hcb hlen =>
          text_bmp_frame_eval_ok 16 16 1 32 color cb bmp (by decide) (by decide) hlen hcb,
        fun color bmp hlen =>
          text_bmp_frame_eval_size_err 16 16 1 32 color bmp (by decide) (by decide) (by omega)⟩
    · exact ⟨fun color cb bmp hcb hlen =>
          text_bmp_frame_eval_ok 32 16 2 64 color cb bmp (by decide) (by decide) hlen hcb,
        fun color bmp hlen =>
          text_bmp_frame_eval_size_err 32 16 2 64 color bmp (by decide) (by decide) (by omega)⟩
    · exact ⟨fun color cb bmp hcb hlen =>
          text_bmp_frame_eval_ok 32 32 3 128 color cb bmp (by decide) (by decide) hlen hcb,
        fun color bmp hlen =>
          text_bmp_frame_eval_size_err 32 32 3 128 color bmp (by decide) (by decide) (by omega)⟩
    · exact ⟨fun color cb bmp hcb hlen =>
          text_bmp_frame_eval_ok 48 24 4 144 color cb bmp (by decide) (by decide) hlen hcb,
        fun color bmp hlen =>
          text_bmp_frame_eval_size_err 48 24 4 144 color bmp (by decide) (by decide) (by omega)⟩
    · exact ⟨fun color cb bmp hcb hlen =>
          text_bmp_frame_eval_ok 48 48 5 288 color cb bmp (by decide) (by decide) hlen hcb,
        fun color bmp hlen =>
          text_bmp_frame_eval_size_err 48 48 5 288 color bmp (by decide) (by decide) (by omega)⟩
    · exact ⟨fun color cb bmp hcb hlen =>
          text_bmp_frame_eval_ok 64 32 6 256 color cb bmp (by decide) (by decide) hlen hcb,
        fun color bmp hlen =>
          text_bmp_frame_eval_size_err 64 32 6 256 color bmp (by decide) (by decide) (by omega)⟩
    · exact ⟨fun color cb bmp hcb hlen =>
          text_bmp_frame_eval_ok 64 64 7 512 color cb bmp (by decide) (by decide) hlen hcb,
        fun color bmp hlen =>
          text_bmp_frame_eval_size_err 64 64 7 512 color bmp (by decide) (by decide) (by omega)⟩
  · intro h w hnot color bmp
    have hmem : formatRes h w ∉ res2val_size.map (fun e => e.1) :=
      fun hm => hnot (formatRes_key_cases h w hm)
    simp only [text_bmp_frame,
      validate_list_err (fun s => s) (formatRes h w) _ (pstr "width") hmem]

theorem text_bmp_frame_table_spec_witness :
    text_bmp_frame 16 8 (pstr "ffffff") (List.replicate 16 0) =
      Except.ok (0 :: ([255, 255, 255] ++ List.replicate 16 0)) ∧
    text_bmp_frame 16 8 (pstr "ffffff") (List.replicate 17 0) =
      Except.error (validate_list_msg (pyRepr 10) (List.replicate 17 0).length [16]
        (pstr "bmp size")) ∧
    text_bmp_frame 17 8 (pstr "ffffff") [] =
      Except.error (validate_list_msg (fun s => s) (formatRes 17 8)
        (res2val_size.map (fun e => e.1)) (pstr "width")) :=
  ⟨(text_bmp_frame_table_spec.1 16 8 0 16 (by decide)).1 (pstr "ffffff") [255, 255, 255]
      (List.replicate 16 0) (by decide) (by decide),
   (text_bmp_frame_table_spec.1 16 8 0 16 (by decide)).2 (pstr "ffffff")
      (List.replicate 17 0) (Or.inr (by decide)),
   text_bmp_frame_table_spec.2 17 8 (by decide) (pstr "ffffff") []⟩

/-! ### The legacy text command (`send_text`) -/

/-- External collaborators used by the legacy family: the rasterizer
`char_to_hex(char, matrix_height, font, font_offset, font_size)` and the
`bit_tools` primitives. -/
structure LegacyExt where
  char_to_hex : Char → Nat → PyStr → Int × Int → Nat → PyStr × Nat
  switch_endian : PyStr → PyStr
  invert_frames : PyStr → PyStr
  logic_reverse_bits_order : PyStr → PyStr
  CRC32_checksum : PyStr → PyStr

/-- The per-character loop of `encode_text`: characters whose raw rasterized
hex `char_hex` is empty (falsy) contribute nothing. -/
def encodeTextGo (E : LegacyExt) (matrix_height : Nat) (color font : PyStr)
    (font_offset : Int × Int) (font_size : Nat) : PyStr → PyStr
  | [] => []
  | c :: cs =>
    (let r := E.char_to_hex c matrix_height font font_offset font_size
     if r.1 ≠ [] then
       pstr "80" ++ color ++ int_to_hex r.2 ++ int_to_hex matrix_height
         ++ E.logic_reverse_bits_order (E.switch_endian (E.invert_frames r.1))
     else []) ++ encodeTextGo E matrix_height color font font_offset font_size cs

/-- `encode_text` from `commands.py` (the result is lower-cased at the end). -/
def encode_text (E : LegacyExt) (text : PyStr) (matrix_height : Nat) (color : PyStr)
    (font : PyStr) (font_offset : Int × Int) (font_size : Nat) : PyStr :=
  pyLower (encodeTextGo E matrix_height color font font_offset font_size text)

/-- `send_text` from `commands.py`, up to the final `bytes.fromhex`: the
complete command as the hex string `total`.  Parameters are in source order. -/
def sendTextTotal (E : LegacyExt) (text : PyStr) (rainbow_mode animation save_slot speed : Nat)
    (color : PyStr) (font : PyStr) (font_offset_x font_offset_y : Int)
    (font_size matrix_height : Nat) : Except PyStr PyStr := do
  validate_range rainbow_mode 0 9 (pstr "Rainbow mode")
  validate_range animation 0 7 (pstr "Animation")
  validate_range save_slot 1 10 (pstr "Save slot")
  validate_range speed 0 100 (pstr "Speed")
  validate_range text.length 1 100 (pstr "Text length")
  validate_range matrix_height 1 128 (pstr "Matrix height")
  let font_size := if font_size = 0 then matrix_height else font_size
  if animation = 3 ∨ animation = 4 then
    Except.error (pstr "Invalid animation for text display")
  else do
    let header_gap := 0x06 + matrix_height * 0x2
    let header_1 := E.switch_endian (zfill 4 (pyRepr 16 (0x1D + text.length * header_gap)))
    let header_2 := pstr "000100"
    let header_3 := E.switch_endian (zfill 4 (pyRepr 16 (0xE + text.length * header_gap)))
    let header_4 := pstr "0000"
    let header := header_1 ++ header_2 ++ header_3 ++ header_4
    let save_slot_hex := zfill 4 (pyRepr 16 save_slot)
    let number_of_characters := int_to_hex text.length
    let properties := pstr "000101" ++ int_to_hex animation ++ int_to_hex speed
      ++ int_to_hex rainbow_mode ++ pstr "ffffff00000000"
    let characters := encode_text E text matrix_height color font
      (font_offset_x, font_offset_y) font_size
    let checksum := E.CRC32_checksum (number_of_characters ++ properties ++ characters)
    let total := header ++ checksum ++ save_slot_hex ++ number_of_characters
      ++ properties ++ characters
    pure total

/-- `send_text` from `commands.py`: the hex string converted to bytes. -/
def send_text (E : LegacyExt) (text : PyStr) (rainbow_mode animation save_slot speed : Nat)
    (color : PyStr) (font : PyStr) (font_offset_x font_offset_y : Int)
    (font_size matrix_height : Nat) : Except PyStr (List Nat) :=
  match sendTextTotal E text rainbow_mode animation save_slot speed color font
      font_offset_x font_offset_y font_size matrix_height with
  | Except.error e => Except.error e
  | Except.ok total => bytesFromHex total

theorem validate_range_bind {α : Type} (v lo hi : Nat) (name : PyStr)
    (f : Unit → Except PyStr α) :
    (validate_range v lo hi name >>= f) =
      if lo ≤ v ∧ v ≤ hi then f () else Except.error (validate_range_msg lo hi name) := by
  rw [validate_range]
  by_cases h : lo ≤ v ∧ v ≤ hi
  · rw [if_pos h, if_pos h]; rfl
  · rw [if_neg h, if_neg h]; rfl

/-- Trivial instantiation of the legacy externals, for concrete evaluations:
identity bit transforms, a rasterizer returning an empty bitmap, a constant
checksum. -/
def legacyTrivial : LegacyExt :=
  { char_to_hex := fun _ _ _ _ _ => ([], 0),
    switch_endian := fun s => s,
    invert_frames := fun s => s,
    logic_reverse_bits_order := fun s => s,
    CRC32_checksum := fun _ => pstr "00000000" }

/-- C6 (amended): with animation 3 or 4 the legacy text command never
succeeds; when all the other validated parameters are in range, the failure is
exactly the unsupported-animation error (when another parameter is out of
range, the earlier range check fails first — see the counterexample). -/
theorem send_text_animation34_never_succeeds (E : LegacyExt) (text : PyStr)
    (rainbow_mode animation save_slot speed : Nat) (color font : PyStr)
    (font_offset_x font_offset_y : Int) (font_size matrix_height : Nat)
    (hA : animation = 3 ∨ animation = 4) :
    (∃ e, sendTextTotal E text rainbow_mode animation save_slot speed color font
        font_offset_x font_offset_y font_size matrix_height = Except.error e) ∧
    (rainbow_mode ≤ 9 ∧ 1 ≤ save_slot ∧ save_slot ≤ 10 ∧ speed ≤ 100 ∧
        1 ≤ text.length ∧ text.length ≤ 100 ∧ 1 ≤ matrix_height ∧ matrix_height ≤ 128 →
      sendTextTotal E text rainbow_mode animation save_slot speed color font
        font_offset_x font_offset_y font_size matrix_height =
        Except.error (pstr "Invalid animation for text display")) := by
  constructor
  · simp only [sendTextTotal, validate_range_bind]
    by_cases c1 : 0 ≤ rainbow_mode ∧ rainbow_mode ≤ 9
    case neg => rw [if_neg c1]; exact ⟨_, rfl⟩
    rw [if_pos c1]
    by_cases c2 : 0 ≤ animation ∧ animation ≤ 7
    case neg => rw [if_neg c2]; exact ⟨_, rfl⟩
    rw [if_pos c2]
    by_cases c3 : 1 ≤ save_slot ∧ save_slot ≤ 10
    case neg => rw [if_neg c3]; exact ⟨_, rfl⟩
    rw [if_pos c3]
    by_cases c4 : 0 ≤ speed ∧ speed ≤ 100
    case neg => rw [if_neg c4]; exact ⟨_, rfl⟩
    rw [if_pos c4]
    by_cases c5 : 1 ≤ text.length ∧ text.length ≤ 100
    case neg => rw [if_neg c5]; exact ⟨_, rfl⟩
    rw [if_pos c5]
    by_cases c6 : 1 ≤ matrix_height ∧ matrix_height ≤ 128
    case neg => rw [if_neg c6]; exact ⟨_, rfl⟩
    rw [if_pos c6, if_pos hA]
    exact ⟨_, rfl⟩
  · intro ⟨g1, g2, g3, g4, g5, g6, g7, g8⟩
    simp only [sendTextTotal, validate_range_bind]
    rw [if_pos ⟨Nat.zero_le _, g1⟩, if_pos ⟨Nat.zero_le _, by omega⟩,
        if_pos ⟨g2, g3⟩, if_pos ⟨Nat.zero_le _, g4⟩, if_pos ⟨g5, g6⟩,
        if_pos ⟨g7, g8⟩, if_pos hA]

theorem send_text_animation34_never_succeeds_witness :
    sendTextTotal legacyTrivial (pstr "a") 0 3 1 80 (pstr "ffffff") (pstr "default")
      0 0 0 16 = Except.error (pstr "Invalid animation for text display") :=
  (send_text_animation34_never_succeeds legacyTrivial (pstr "a") 0 3 1 80
    (pstr "ffffff") (pstr "default") 0 0 0 16 (Or.inl rfl)).2
    (by refine ⟨by omega, by omega, by omega, by omega, by decide, by decide, by omega, by omega⟩)

/-- C6 counterexample: with animation 3 but speed 101, the call fails with the
`Speed` range error — not the unsupported-animation error — because the range
validations run before the animation check. -/
theorem send_text_animation3_speed_error :
    sendTextTotal legacyTrivial (pstr "a") 0 3 1 101 (pstr "ffffff") (pstr "default")
      0 0 0 16 = Except.error (pstr "Speed must be between 0 and 100") ∧
    pstr "Speed must be between 0 and 100" ≠ pstr "Invalid animation for text display" := by
  constructor
  · decide
  · decide

theorem takeLen {α : Type} (l1 l2 : List α) (n : Nat) (h : l1.length = n) :
    (l1 ++ l2).take n = l1 := by
  subst h
  induction l1 with
  | nil => rfl
  | cons a t ih => simp [ih]

theorem dropLen {α : Type} (l1 l2 : List α) (n : Nat) (h : l1.length = n) :
    (l1 ++ l2).drop n = l2 := by
  subst h
  induction l1 with
  | nil => rfl
  | cons a t ih => simp [ih]

/-- The hex body of a successfully assembled legacy text command, exactly as
`send_text` concatenates it. -/
def sendTextBody (E : LegacyExt) (text : PyStr) (rainbow_mode animation save_slot speed : Nat)
    (color font : PyStr) (font_offset_x font_offset_y : Int)
    (font_size matrix_height : Nat) : PyStr :=
  E.switch_endian (zfill 4 (pyRepr 16 (0x1D + text.length * (0x06 + matrix_height * 0x2))))
    ++ pstr "000100"
    ++ E.switch_endian (zfill 4 (pyRepr 16 (0xE + text.length * (0x06 + matrix_height * 0x2))))
    ++ pstr "0000"
    ++ E.CRC32_checksum (int_to_hex text.length
        ++ (pstr "000101" ++ int_to_hex animation ++ int_to_hex speed
            ++ int_to_hex rainbow_mode ++ pstr "ffffff00000000")
        ++ encode_text E text matrix_height color font (font_offset_x, font_offset_y)
            (if font_size = 0 then matrix_height else font_size))
    ++ zfill 4 (pyRepr 16 save_slot)
    ++ int_to_hex text.length
    ++ (pstr "000101" ++ int_to_hex animation ++ int_to_hex speed
        ++ int_to_hex rainbow_mode ++ pstr "ffffff00000000")
    ++ encode_text E text matrix_height color font (font_offset_x, font_offset_y)
        (if font_size = 0 then matrix_height else font_size)

theorem sendTextTotal_ok_form (E : LegacyExt) (text : PyStr)
    (rainbow_mode animation save_slot speed : Nat) (color font : PyStr)
    (font_offset_x font_offset_y : Int) (font_size matrix_height : Nat)
    (h1 : rainbow_mode ≤ 9) (h2 : animation ≤ 7) (h3 : 1 ≤ save_slot) (h4 : save_slot ≤ 10)
    (h5 : speed ≤ 100) (h6 : 1 ≤ text.length) (h7 : text.length ≤ 100)
    (h8 : 1 ≤ matrix_height) (h9 : matrix_height ≤ 128)
    (ha3 : animation ≠ 3) (ha4 : animation ≠ 4) :
    sendTextTotal E text rainbow_mode animation save_slot speed color font
      font_offset_x font_offset_y font_size matrix_height =
    Except.ok (sendTextBody E text rainbow_mode animation save_slot speed color font
      font_offset_x font_offset_y font_size matrix_height) := by
  simp only [sendTextTotal, validate_range_bind]
  rw [if_pos ⟨Nat.zero_le _, h1⟩, if_pos ⟨Nat.zero_le _, h2⟩, if_pos ⟨h3, h4⟩,
      if_pos ⟨Nat.zero_le _, h5⟩, if_pos ⟨h6, h7⟩, if_pos ⟨h8, h9⟩,
      if_neg (show ¬(animation = 3 ∨ animation = 4) by omega)]
  rfl

theorem sendTextTotal_ok_inv (E : LegacyExt) (text : PyStr)
    (rainbow_mode animation save_slot speed : Nat) (color font : PyStr)
    (font_offset_x font_offset_y : Int) (font_size matrix_height : Nat) (t : PyStr)
    (h : sendTextTotal E text rainbow_mode animation save_slot speed color font
      font_offset_x font_offset_y font_size matrix_height = Except.ok t) :
    rainbow_mode ≤ 9 ∧ animation ≤ 7 ∧ 1 ≤ save_slot ∧ save_slot ≤ 10 ∧ speed ≤ 100 ∧
    1 ≤ text.length ∧ text.length ≤ 100 ∧ 1 ≤ matrix_height ∧ matrix_height ≤ 128 ∧
    animation ≠ 3 ∧ animation ≠ 4 ∧
    t = sendTextBody E text rainbow_mode animation save_slot speed color font
      font_offset_x font_offset_y font_size matrix_height := by
  simp only [sendTextTotal, validate_range_bind] at h
  by_cases c1 : 0 ≤ rainbow_mode ∧ rainbow_mode ≤ 9
  case neg => rw [if_neg c1] at h; exact absurd h (by simp)
  rw [if_pos c1] at h
  by_cases c2 : 0 ≤ animation ∧ animation ≤ 7
  case neg => rw [if_neg c2] at h; exact absurd h (by simp)
  rw [if_pos c2] at h
  by_cases c3 : 1 ≤ save_slot ∧ save_slot ≤ 10
  case neg => rw [if_neg c3] at h; exact absurd h (by simp)
  rw [if_pos c3] at h
  by_cases c4 : 0 ≤ speed ∧ speed ≤ 100
  case neg => rw [if_neg c4] at h; exact absurd h (by simp)
  rw [if_pos c4] at h
  by_cases c5 : 1 ≤ text.length ∧ text.length ≤ 100
  case neg => rw [if_neg c5] at h; exact absurd h (by simp)
  rw [if_pos c5] at h
  by_cases c6 : 1 ≤ matrix_height ∧ matrix_height ≤ 128
  case neg => rw [if_neg c6] at h; exact absurd h (by simp)
  rw [if_pos c6] at h
  by_cases cA : animation = 3 ∨ animation = 4
  case pos => rw [if_pos cA] at h; exact absurd h (by simp)
  rw [if_neg cA] at h
  have ht : t = sendTextBody E text rainbow_mode animation save_slot speed color font
      font_offset_x font_offset_y font_size matrix_height :=
    (Except.ok.inj h).symm
  exact ⟨c1.2, c2.2, c3.1, c3.2, c4.2, c5.1, c5.2, c6.1, c6.2,
    fun e => cA (Or.inl e), fun e => cA (Or.inr e), ht⟩

theorem zfill4_hex_length (n : Nat) (h : n < 65536) : (zfill 4 (pyRepr 16 n)).length = 4 := by
  rw [zfill_length]
  have hle : (pyRepr 16 n).length ≤ 4 :=
    pyRepr_len_le 16 (by omega) n 4 (by omega)
      (by have e : (16 : Nat) ^ 4 = 65536 := by norm_num
          omega)
  omega

theorem int_to_hex_length (n : Nat) (h : n < 256) : (int_to_hex n).length = 2 := by
  rw [int_to_hex, zfill_length]
  have hle : (pyRepr 16 n).length ≤ 2 :=
    pyRepr_len_le 16 (by omega) n 2 (by omega)
      (by have e : (16 : Nat) ^ 2 = 256 := by norm_num
          omega)
  omega

/-- C4: for every successfully assembled legacy text command, the first header
field (hex characters 0–3) is `switchEndian` of the 4-hex-digit rendering of
`0x1D + textLength × (6 + 2 × matrixHeight)` and the second length field (hex
characters 10–13) is `switchEndian` of the 4-hex-digit rendering of
`0xE + textLength × (6 + 2 × matrixHeight)`. -/
theorem send_text_header_length_fields (E : LegacyExt) (text : PyStr)
    (rainbow_mode animation save_slot speed : Nat) (color font : PyStr)
    (font_offset_x font_offset_y : Int) (font_size matrix_height : Nat)
    (hSE : ∀ s, (E.switch_endian s).length = s.length) :
    ∀ t, sendTextTotal E text rainbow_mode animation save_slot speed color font
        font_offset_x font_offset_y font_size matrix_height = Except.ok t →
      t.take 4 = E.switch_endian (zfill 4 (pyRepr 16
        (0x1D + text.length * (6 + 2 * matrix_height)))) ∧
      (t.drop 10).take 4 = E.switch_endian (zfill 4 (pyRepr 16
        (0xE + text.length * (6 + 2 * matrix_height)))) := by
  intro t h
  obtain ⟨h1, h2, h3, h4, h5, h6, h7, h8, h9, ha3, ha4, rfl⟩ :=
    sendTextTotal_ok_inv E text rainbow_mode animation save_slot speed color font
      font_offset_x font_offset_y font_size matrix_height t h
  have hp : text.length * (0x06 + matrix_height * 0x2) ≤ 100 * 262 :=
    Nat.mul_le_mul h7 (by omega)
  have hn1 : 0x1D + text.length * (0x06 + matrix_height * 0x2) < 65536 := by omega
  have hn3 : 0xE + text.length * (0x06 + matrix_height * 0x2) < 65536 := by omega
  have lh1 : (E.switch_endian (zfill 4 (pyRepr 16
      (0x1D + text.length * (0x06 + matrix_height * 0x2))))).length = 4 := by
    rw [hSE]; exact zfill4_hex_length _ hn1
  have lh3 : (E.switch_endian (zfill 4 (pyRepr 16
      (0xE + text.length * (0x06 + matrix_height * 0x2))))).length = 4 := by
    rw [hSE]; exact zfill4_hex_length _ hn3
  have egap : 6 + 2 * matrix_height = 0x06 + matrix_height * 0x2 := by ring
  rw [egap]
  constructor
  · simp only [sendTextBody, List.append_assoc]
    exact takeLen _ _ 4 lh1
  · simp only [sendTextBody, List.append_assoc]
    rw [← List.append_assoc (E.switch_endian (zfill 4 (pyRepr 16
        (0x1D + text.length * (0x06 + matrix_height * 0x2))))) (pstr "000100")]
    rw [dropLen _ _ 10 (by rw [List.length_append, lh1]; rfl)]
    exact takeLen _ _ 4 lh3

theorem dropChunk {α : Type} (l1 l2 : List α) (n m k : Nat) (h : l1.length = n)
    (hk : k = n + m) : (l1 ++ l2).drop k = l2.drop m := by
  subst hk; subst h
  induction l1 with
  | nil => simp
  | cons a t ih =>
    rw [List.cons_append, List.length_cons]
    have e : t.length + 1 + m = (t.length + m) + 1 := by omega
    rw [e, List.drop_succ_cons]
    exact ih

/-- C3: in every successfully assembled legacy text command, the 8 hex
characters at offset 18 (right after the four header fields) are the textual
CRC32 of exactly the hex concatenation of the character-count byte, the
properties block and the encoded glyph stream — which is precisely the part of
the command after the 30 leading hex characters of header, checksum and
save-slot fields. -/
theorem send_text_checksum_scope (E : LegacyExt) (text : PyStr)
    (rainbow_mode animation save_slot speed : Nat) (color font : PyStr)
    (font_offset_x font_offset_y : Int) (font_size matrix_height : Nat)
    (hSE : ∀ s, (E.switch_endian s).length = s.length)
    (hCk : ∀ s, (E.CRC32_checksum s).length = 8) :
    ∀ t, sendTextTotal E text rainbow_mode animation save_slot speed color font
        font_offset_x font_offset_y font_size matrix_height = Except.ok t →
      (t.drop 18).take 8 = E.CRC32_checksum (int_to_hex text.length
        ++ (pstr "000101" ++ int_to_hex animation ++ int_to_hex speed
            ++ int_to_hex rainbow_mode ++ pstr "ffffff00000000")
        ++ encode_text E text matrix_height color font (font_offset_x, font_offset_y)
            (if font_size = 0 then matrix_height else font_size)) ∧
      int_to_hex text.length
        ++ (pstr "000101" ++ int_to_hex animation ++ int_to_hex speed
            ++ int_to_hex rainbow_mode ++ pstr "ffffff00000000")
        ++ encode_text E text matrix_height color font (font_offset_x, font_offset_y)
            (if font_size = 0 then matrix_height else font_size) = t.drop 30 := by
  intro t h
  obtain ⟨h1, h2, h3, h4, h5, h6, h7, h8, h9, ha3, ha4, rfl⟩ :=
    sendTextTotal_ok_inv E text rainbow_mode animation save_slot speed color font
      font_offset_x font_offset_y font_size matrix_height t h
  have hp : text.length * (0x06 + matrix_height * 0x2) ≤ 100 * 262 :=
    Nat.mul_le_mul h7 (by omega)
  have lh1 : (E.switch_endian (zfill 4 (pyRepr 16
      (0x1D + text.length * (0x06 + matrix_height * 0x2))))).length = 4 := by
    rw [hSE]; exact zfill4_hex_length _ (by omega)
  have lh3 : (E.switch_endian (zfill 4 (pyRepr 16
      (0xE + text.length * (0x06 + matrix_height * 0x2))))).length = 4 := by
    rw [hSE]; exact zfill4_hex_length _ (by omega)
  have lslot : (zfill 4 (pyRepr 16 save_slot)).length = 4 :=
    zfill4_hex_length _ (by omega)
  constructor
  · simp only [sendTextBody, List.append_assoc]
    rw [dropChunk _ _ 4 14 18 lh1 (by norm_num),
        dropChunk _ _ 6 8 14 (by rfl) (by norm_num),
        dropChunk _ _ 4 4 8 lh3 (by norm_num),
        dropChunk _ _ 4 0 4 (by rfl) (by norm_num),
        List.drop_zero]
    exact takeLen _ _ 8 (hCk _)
  · simp only [sendTextBody, List.append_assoc]
    rw [dropChunk _ _ 4 26 30 lh1 (by norm_num),
        dropChunk _ _ 6 20 26 (by rfl) (by norm_num),
        dropChunk _ _ 4 16 20 lh3 (by norm_num),
        dropChunk _ _ 4 12 16 (by rfl) (by norm_num),
        dropChunk _ _ 8 4 12 (hCk _) (by norm_num),
        dropChunk _ _ 4 0 4 lslot (by norm_num),
        List.drop_zero]

theorem encodeTextGo_filter (E : LegacyExt) (matrix_height : Nat) (color font : PyStr)
    (font_offset : Int × Int) (font_size : Nat) : ∀ l : PyStr,
    encodeTextGo E matrix_height color font font_offset font_size l =
      encodeTextGo E matrix_height color font font_offset font_size
        (l.filter fun c => (E.char_to_hex c matrix_height font font_offset font_size).1 ≠ []) := by
  intro l
  induction l with
  | nil => rfl
  | cons c cs ih =>
    rw [List.filter_cons]
    by_cases hc : (E.char_to_hex c matrix_height font font_offset font_size).1 = []
    · rw [if_neg (by simp [hc])]
      simp only [encodeTextGo]
      rw [if_neg (by simp [hc])]
      simpa using ih
    · rw [if_pos (by simp [hc])]
      simp only [encodeTextGo]
      rw [if_pos (by simp [hc])]
      rw [ih]

theorem encode_text_filter (E : LegacyExt) (text : PyStr) (matrix_height : Nat)
    (color font : PyStr) (font_offset : Int × Int) (font_size : Nat) :
    encode_text E text matrix_height color font font_offset font_size =
      encode_text E (text.filter fun c =>
          (E.char_to_hex c matrix_height font font_offset font_size).1 ≠ [])
        matrix_height color font font_offset font_size := by
  rw [encode_text, encode_text, encodeTextGo_filter]

/-- C9: for valid parameters the legacy text command is produced without
error; its embedded character-count byte (hex characters 30–31) is always the
2-hex rendering of the full input length, while the glyph stream (from hex
character 58 on) only contains frames for the characters whose raw rasterized
bitmap is non-empty — characters rasterizing to an empty bitmap are filtered
out of the stream but still counted. -/
theorem send_text_count_vs_stream (E : LegacyExt) (text : PyStr)
    (rainbow_mode animation save_slot speed : Nat) (color font : PyStr)
    (font_offset_x font_offset_y : Int) (font_size matrix_height : Nat)
    (h1 : rainbow_mode ≤ 9) (h2 : animation ≤ 7) (h3 : 1 ≤ save_slot) (h4 : save_slot ≤ 10)
    (h5 : speed ≤ 100) (h6 : 1 ≤ text.length) (h7 : text.length ≤ 100)
    (h8 : 1 ≤ matrix_height) (h9 : matrix_height ≤ 128)
    (ha3 : animation ≠ 3) (ha4 : animation ≠ 4)
    (hSE : ∀ s, (E.switch_endian s).length = s.length)
    (hCk : ∀ s, (E.CRC32_checksum s).length = 8) :
    (∃ t, sendTextTotal E text rainbow_mode animation save_slot speed color font
        font_offset_x font_offset_y font_size matrix_height = Except.ok t) ∧
    ∀ t, sendTextTotal E text rainbow_mode animation save_slot speed color font
        font_offset_x font_offset_y font_size matrix_height = Except.ok t →
      (t.drop 30).take 2 = int_to_hex text.length ∧
      t.drop 58 = encode_text E
        (text.filter fun c => (E.char_to_hex c matrix_height font
          (font_offset_x, font_offset_y)
          (if font_size = 0 then matrix_height else font_size)).1 ≠ [])
        matrix_height color font (font_offset_x, font_offset_y)
        (if font_size = 0 then matrix_height else font_size) := by
  constructor
  · exact ⟨_, sendTextTotal_ok_form E text rainbow_mode animation save_slot speed color font
      font_offset_x font_offset_y font_size matrix_height h1 h2 h3 h4 h5 h6 h7 h8 h9 ha3 ha4⟩
  intro t h
  obtain ⟨_, _, _, _, _, _, _, _, _, _, _, rfl⟩ :=
    sendTextTotal_ok_inv E text rainbow_mode animation save_slot speed color font
      font_offset_x font_offset_y font_size matrix_height t h
  have hp : text.length * (0x06 + matrix_height * 0x2) ≤ 100 * 262 :=
    Nat.mul_le_mul h7 (by omega)
  have lh1 : (E.switch_endian (zfill 4 (pyRepr 16
      (0x1D + text.length * (0x06 + matrix_height * 0x2))))).length = 4 := by
    rw [hSE]; exact zfill4_hex_length _ (by omega)
  have lh3 : (E.switch_endian (zfill 4 (pyRepr 16
      (0xE + text.length * (0x06 + matrix_height * 0x2))))).length = 4 := by
    rw [hSE]; exact zfill4_hex_length _ (by omega)
  have lslot : (zfill 4 (pyRepr 16 save_slot)).length = 4 :=
    zfill4_hex_length _ (by omega)
  have lcnt : (int_to_hex text.length).length = 2 := int_to_hex_length _ (by omega)
  have lanim : (int_to_hex animation).length = 2 := int_to_hex_length _ (by omega)
  have lspeed : (int_to_hex speed).length = 2 := int_to_hex_length _ (by omega)
  have lrb : (int_to_hex rainbow_mode).length = 2 := int_to_hex_length _ (by omega)
  constructor
  · simp only [sendTextBody, List.append_assoc]
    rw [dropChunk _ _ 4 26 30 lh1 (by norm_num),
        dropChunk _ _ 6 20 26 (by rfl) (by norm_num),
        dropChunk _ _ 4 16 20 lh3 (by norm_num),
        dropChunk _ _ 4 12 16 (by rfl) (by norm_num),
        dropChunk _ _ 8 4 12 (hCk _) (by norm_num),
        dropChunk _ _ 4 0 4 lslot (by norm_num),
        List.drop_zero]
    exact takeLen _ _ 2 lcnt
  · simp only [sendTextBody, List.append_assoc]
    rw [dropChunk _ _ 4 54 58 lh1 (by norm_num),
        dropChunk _ _ 6 48 54 (by rfl) (by norm_num),
        dropChunk _ _ 4 44 48 lh3 (by norm_num),
        dropChunk _ _ 4 40 44 (by rfl) (by norm_num),
        dropChunk _ _ 8 32 40 (hCk _) (by norm_num),
        dropChunk _ _ 4 28 32 lslot (by norm_num),
        dropChunk _ _ 2 26 28 lcnt (by norm_num),
        dropChunk _ _ 6 20 26 (by rfl) (by norm_num),
        dropChunk _ _ 2 18 20 lanim (by norm_num),
        dropChunk _ _ 2 16 18 lspeed (by norm_num),
        dropChunk _ _ 2 14 16 lrb (by norm_num),
        dropChunk _ _ 14 0 14 (by rfl) (by norm_num),
        List.drop_zero]
    exact encode_text_filter E text matrix_height color font
      (font_offset_x, font_offset_y) (if font_size = 0 then matrix_height else font_size)

/-! ### The new-family assembler `send_text2_` (and its `send_text1` /
`send_text2` wrappers) -/

/-- `minmax_width80` from `send_text2_`. -/
def minmax_width80 : List (Nat × (Nat × Nat × Nat)) :=
  [(16, (9, 16, 1)), (12, (9, 16, 1)), (20, (9, 16, 1)), (24, (9, 16, 1)), (32, (17, 24, 1))]

/-- `minmax_width00` from `send_text2_`. -/
def minmax_width00 : List (Nat × (Nat × Nat × Nat)) :=
  [(16, (8, 16, 8)), (32, (16, 32, 16)), (48, (24, 48, 24)), (64, (32, 64, 32))]

/-- `send_text2_` from `commands.py`.  The renderer installed via
`set_renderer` is `char2bytes` with the keyword arguments `font`, `font_size`
and `minmax_width[matrix_height]` bound (so `font_offset` keeps its `[0, 0]`
default inside `char2bytes`; the `font_offset_x`/`font_offset_y` parameters of
`send_text2_` are accepted but never forwarded, as in the source). -/
def send_text2_ (E : PacketExt) (text : PyStr) (led_type animation save_slot speed
    halign valign rainbow_mode : Nat) (color : PyStr) (bg_color_mode : Nat)
    (bg_color : PyStr) (font : PyStr) (font_offset_x font_offset_y : Int)
    (font_size matrix_height : Nat) : Except PyStr (List Nat) :=
  let minmax_width := if led_type = 0 then minmax_width00 else minmax_width80
  match assocFind matrix_height minmax_width with
  | none => Except.error (pstr "KeyError: " ++ pyRepr 10 matrix_height)
  | some mm =>
    let pkt := text_packet.init led_type animation speed rainbow_mode color
      bg_color_mode bg_color halign valign
    let pkt := pkt.set_renderer (some fun c size => char2bytes E c size font (0, 0) font_size mm)
    match pkt.add_text text matrix_height (some color) with
    | Except.error e => Except.error e
    | Except.ok pkt =>
      match pkt.get_packet with
      | Except.error e => Except.error e
      | Except.ok prop_char =>
        match to_bytes_le 4 (binCRC32_checksum E prop_char) with
        | Except.error e => Except.error e
        | Except.ok checksum =>
          let tsize := prop_char.length + 4 + 4 + 2
          match byteList [0, save_slot] with
          | Except.error e => Except.error e
          | Except.ok slot =>
            match to_bytes_le 4 tsize with
            | Except.error e => Except.error e
            | Except.ok tsizeB =>
              match bytesFromHex (pstr "ffff 0001 00") with
              | Except.error e => Except.error e
              | Except.ok h5 =>
                update_packet_size (h5 ++ tsizeB ++ checksum ++ slot ++ prop_char)

/-- `send_text1` from `commands.py` (`led_type=1`; the `intkeys` coercion is
the identity on already-typed arguments). -/
def send_text1 (E : PacketExt) (text : PyStr) (animation save_slot speed
    halign valign rainbow_mode : Nat) (color : PyStr) (bg_color_mode : Nat)
    (bg_color : PyStr) (font : PyStr) (font_offset_x font_offset_y : Int)
    (font_size matrix_height : Nat) : Except PyStr (List Nat) :=
  send_text2_ E text 1 animation save_slot speed halign valign rainbow_mode color
    bg_color_mode bg_color font font_offset_x font_offset_y font_size matrix_height

/-- `send_text2` from `commands.py` (`led_type=0`). -/
def send_text2 (E : PacketExt) (text : PyStr) (animation save_slot speed
    halign valign rainbow_mode : Nat) (color : PyStr) (bg_color_mode : Nat)
    (bg_color : PyStr) (font : PyStr) (font_offset_x font_offset_y : Int)
    (font_size matrix_height : Nat) : Except PyStr (List Nat) :=
  send_text2_ E text 0 animation save_slot speed halign valign rainbow_mode color
    bg_color_mode bg_color font font_offset_x font_offset_y font_size matrix_height

theorem leBytes_length : ∀ k n, (leBytes k n).length = k := by
  intro k
  induction k with
  | zero => intro n; rfl
  | succ k ih => intro n; simp [leBytes, ih]

theorem readLE_leBytes : ∀ k n, readLE (leBytes k n) = n % 2 ^ (8 * k) := by
  intro k
  induction k with
  | zero => intro n; simp [leBytes, readLE, Nat.mod_one]
  | succ k ih =>
    intro n
    rw [leBytes, readLE, ih,
        show 2 ^ (8 * (k + 1)) = 256 * 2 ^ (8 * k) from by
          rw [show 8 * (k + 1) = 8 * k + 8 from by ring, pow_add]; ring,
        Nat.mod_mul]

theorem update_packet_size_field (b : List Nat) (hb : 2 ≤ b.length) :
    ∀ out, update_packet_size b = Except.ok out →
      readLE (out.take 2) = out.length ∧
      readLE (out.take 2) = (out.drop 2).length + 2 := by
  intro out h
  rw [update_packet_size, to_bytes_le] at h
  by_cases hlt : b.length < 2 ^ (8 * 2)
  case neg => rw [if_neg hlt] at h; exact absurd h (by simp)
  rw [if_pos hlt] at h
  have hout : out = leBytes 2 b.length ++ b.drop 2 := (Except.ok.inj h).symm
  subst hout
  have htake : (leBytes 2 b.length ++ b.drop 2).take 2 = leBytes 2 b.length :=
    takeLen _ _ 2 (leBytes_length 2 _)
  have hdrop : (leBytes 2 b.length ++ b.drop 2).drop 2 = b.drop 2 :=
    dropLen _ _ 2 (leBytes_length 2 _)
  have hread : readLE (leBytes 2 b.length) = b.length := by
    rw [readLE_leBytes]
    exact Nat.mod_eq_of_lt hlt
  have hlen : (leBytes 2 b.length ++ b.drop 2).length = b.length := by
    rw [List.length_append, leBytes_length, List.length_drop]
    omega
  have hlen2 : (b.drop 2).length = b.length - 2 := List.length_drop 2 b
  rw [htake, hdrop, hread, hlen, hlen2]
  omega

/-- C1 (amended): for every packet produced by `send_text2_` (hence by
`send_text1`/`send_text2`), the leading 2-byte little-endian size field that
`update_packet_size` patches in equals the byte count of the **whole** returned
command — i.e. the length of the payload following the field **plus 2**, the
two size bytes themselves included — not the remaining length alone. -/
theorem send_text2_size_field (E : PacketExt) (text : PyStr)
    (led_type animation save_slot speed halign valign rainbow_mode : Nat)
    (color : PyStr) (bg_color_mode : Nat) (bg_color : PyStr) (font : PyStr)
    (font_offset_x font_offset_y : Int) (font_size matrix_height : Nat) :
    ∀ out, send_text2_ E text led_type animation save_slot speed halign valign
        rainbow_mode color bg_color_mode bg_color font font_offset_x font_offset_y
        font_size matrix_height = Except.ok out →
      readLE (out.take 2) = out.length ∧
      readLE (out.take 2) = (out.drop 2).length + 2 := by
  intro out h
  rw [send_text2_] at h
  rcases hmm : assocFind matrix_height
      (if led_type = 0 then minmax_width00 else minmax_width80) with _ | mm
  · rw [hmm] at h; exact absurd h (by simp)
  rw [hmm] at h
  simp only [] at h
  rcases htext : ((text_packet.init led_type animation speed rainbow_mode color bg_color_mode
      bg_color halign valign).set_renderer
      (some fun c size => char2bytes E c size font (0, 0) font_size mm)).add_text
      text matrix_height (some color) with e | pkt
  · rw [htext] at h; exact absurd h (by simp)
  rw [htext] at h
  simp only [] at h
  rcases hgp : pkt.get_packet with e | prop_char
  · rw [hgp] at h; exact absurd h (by simp)
  rw [hgp] at h
  simp only [] at h
  rcases hck : to_bytes_le 4 (binCRC32_checksum E prop_char) with e | checksum
  · rw [hck] at h; exact absurd h (by simp)
  rw [hck] at h
  simp only [] at h
  rcases hsl : byteList [0, save_slot] with e | slot
  · rw [hsl] at h; exact absurd h (by simp)
  rw [hsl] at h
  simp only [] at h
  rcases hts : to_bytes_le 4 (prop_char.length + 4 + 4 + 2) with e | tsizeB
  · rw [hts] at h; exact absurd h (by simp)
  rw [hts] at h
  simp only [] at h
  rcases hh5 : bytesFromHex (pstr "ffff 0001 00") with e | h5
  · rw [hh5] at h; exact absurd h (by simp)
  rw [hh5] at h
  simp only [] at h
  have hh5' : h5 = [0xff, 0xff, 0x00, 0x01, 0x00] := by
    have e0 : bytesFromHex (pstr "ffff 0001 00") =
        Except.ok [0xff, 0xff, 0x00, 0x01, 0x00] := by decide
    rw [e0] at hh5
    exact (Except.ok.inj hh5).symm
  subst hh5'
  refine update_packet_size_field _ ?_ out h
  simp only [List.length_append, List.length_cons, List.length_nil]
  omega

/-- Trivial instantiation of the new-family externals, for concrete
evaluations. -/
def packetTrivial : PacketExt :=
  { char_to_hex := fun _ _ _ _ _ _ => ([], 0),
    switch_endian := fun s => s,
    invert_frames := fun s => s,
    logic_reverse_bits_order := fun s => s,
    crc32 := fun _ => 0 }

/-- C1 counterexample: a concrete `send_text2_` packet whose leading 2-byte
little-endian size field holds 29 — the length of the whole command — while
the payload following the field is only 27 bytes long, so the field does not
equal the remaining length after the two size bytes. -/
theorem send_text2_size_field_counterexample :
    send_text2_ packetTrivial [] 0 0 0x65 80 0 0 0 (pstr "ffffff") 0 (pstr "000000")
      (pstr "default") 0 0 0 16 =
      Except.ok [29, 0, 0, 1, 0, 24, 0, 0, 0, 0, 0, 0, 0, 0, 101,
        0, 0, 0, 0, 0, 80, 0, 255, 255, 255, 0, 255, 255, 255] ∧
    readLE (List.take 2 [29, 0, 0, 1, 0, 24, 0, 0, 0, 0, 0, 0, 0, 0, 101,
        0, 0, 0, 0, 0, 80, 0, 255, 255, 255, 0, 255, 255, 255]) = 29 ∧
    (List.drop 2 [29, 0, 0, 1, 0, 24, 0, 0, 0, 0, 0, 0, 0, 0, 101,
        0, 0, 0, 0, 0, 80, 0, 255, 255, 255, 0, 255, 255, 255]).length = 27 ∧
    (29 : Nat) ≠ 27 := by
  refine ⟨by decide, by decide, by decide, by decide⟩

theorem send_text2_size_field_witness :
    readLE (List.take 2 [29, 0, 0, 1, 0, 24, 0, 0, 0, 0, 0, 0, 0, 0, 101,
        0, 0, 0, 0, 0, 80, 0, 255, 255, 255, 0, 255, 255, 255]) =
      (List.length [29, 0, 0, 1, 0, 24, 0, 0, 0, 0, 0, 0, 0, 0, 101,
        0, 0, 0, 0, 0, 80, 0, 255, 255, 255, 0, 255, 255, 255] : Nat) ∧
    readLE (List.take 2 [29, 0, 0, 1, 0, 24, 0, 0, 0, 0, 0, 0, 0, 0, 101,
        0, 0, 0, 0, 0, 80, 0, 255, 255, 255, 0, 255, 255, 255]) =
      (List.drop 2 [29, 0, 0, 1, 0, 24, 0, 0, 0, 0, 0, 0, 0, 0, 101,
        0, 0, 0, 0, 0, 80, 0, 255, 255, 255, 0, 255, 255, 255]).length + 2 :=
  send_text2_size_field packetTrivial [] 0 0 0x65 80 0 0 0 (pstr "ffffff") 0
    (pstr "000000") (pstr "default") 0 0 0 16 _ (by decide)

theorem send_text_checksum_scope_witness :
    ((sendTextBody legacyTrivial (pstr "Hi") 0 0 1 80 (pstr "ffffff") (pstr "default")
        0 0 0 16).drop 18).take 8 =
      legacyTrivial.CRC32_checksum (int_to_hex (pstr "Hi").length
        ++ (pstr "000101" ++ int_to_hex 0 ++ int_to_hex 80
            ++ int_to_hex 0 ++ pstr "ffffff00000000")
        ++ encode_text legacyTrivial (pstr "Hi") 16 (pstr "ffffff") (pstr "default") (0, 0)
            (if 0 = 0 then 16 else 0)) ∧
    int_to_hex (pstr "Hi").length
        ++ (pstr "000101" ++ int_to_hex 0 ++ int_to_hex 80
            ++ int_to_hex 0 ++ pstr "ffffff00000000")
        ++ encode_text legacyTrivial (pstr "Hi") 16 (pstr "ffffff") (pstr "default") (0, 0)
            (if 0 = 0 then 16 else 0) =
      (sendTextBody legacyTrivial (pstr "Hi") 0 0 1 80 (pstr "ffffff") (pstr "default")
        0 0 0 16).drop 30 :=
  send_text_checksum_scope legacyTrivial (pstr "Hi") 0 0 1 80 (pstr "ffffff")
    (pstr "default") 0 0 0 16 (fun s => rfl) (fun s => rfl) _ (by decide)

theorem send_text_header_length_fields_witness :
    (sendTextBody legacyTrivial (pstr "Hi") 0 0 1 80 (pstr "ffffff") (pstr "default")
        0 0 0 16).take 4 =
      legacyTrivial.switch_endian (zfill 4 (pyRepr 16
        (0x1D + (pstr "Hi").length * (6 + 2 * 16)))) ∧
    ((sendTextBody legacyTrivial (pstr "Hi") 0 0 1 80 (pstr "ffffff") (pstr "default")
        0 0 0 16).drop 10).take 4 =
      legacyTrivial.switch_endian (zfill 4 (pyRepr 16
        (0xE + (pstr "Hi").length * (6 + 2 * 16)))) :=
  send_text_header_length_fields legacyTrivial (pstr "Hi") 0 0 1 80 (pstr "ffffff")
    (pstr "default") 0 0 0 16 (fun s => rfl) _ (by decide)

theorem send_text_count_vs_stream_witness :
    ((sendTextBody legacyTrivial (pstr "Hi") 0 0 1 80 (pstr "ffffff") (pstr "default")
        0 0 0 16).drop 30).take 2 = int_to_hex (pstr "Hi").length ∧
    (sendTextBody legacyTrivial (pstr "Hi") 0 0 1 80 (pstr "ffffff") (pstr "default")
        0 0 0 16).drop 58 = encode_text legacyTrivial
      ((pstr "Hi").filter fun c => (legacyTrivial.char_to_hex c 16 (pstr "default") (0, 0)
        (if 0 = 0 then 16 else 0)).1 ≠ [])
      16 (pstr "ffffff") (pstr "default") (0, 0) (if 0 = 0 then 16 else 0) :=
  (send_text_count_vs_stream legacyTrivial (pstr "Hi") 0 0 1 80 (pstr "ffffff")
    (pstr "default") 0 0 0 16 (by omega) (by omega) (by omega) (by omega) (by omega)
    (by decide) (by decide) (by omega) (by omega) (by omega) (by omega)
    (fun s => rfl) (fun s => rfl)).2 _ (by decide)
